import Mathlib

/-!
Verification of the columbus row-mapping library (go-andiamo/columbus).

This file gives a shallow embedding of the row-mapping core: the per-column
row assembly of `mapRow` (mapper.go), the read operations `Rows`, `FirstRow`,
`ExactlyOneRow`, `Iterate`, the streaming writers `WriteRows` and
`WriteExactlyOneRow`, the sub-query execution of `sliceSubQuery.Execute` and
`mergeSubQuery.Execute` together with `getArgs` (sub_query.go), the option
resolution of `addOptions` and `rowMapOptions` (mapper.go), and the struct
mapper's query-option handling including `checkForgedColumns`
(struct_mapper.go).

Values flowing out of the database are modelled after they have been read by
the column scanners (columns.go): a scanned cell is a `Value`, where
`Value.vnull` stands for the Go `nil` interface value.  Rows
(`map[string]any` in Go) are modelled as association lists in which an
assignment replaces the first binding with the same key or appends a new one;
Go map iteration order is the list order of the model.  Database access is
abstracted as a function from the resolved arguments to the query result, so
theorems quantifying over that function hold for every possible database.
The JSON writer is modelled as an infallible string sink, matching the
behaviour of an in-memory buffer.
-/

namespace Columbus

/-- JSON-shaped dynamic value, the model of Go `any` values held in mapped
rows: `vnull` is the nil interface, `vstr` a string, `vobj` a
`map[string]any` (as an association list), `varr` a slice. -/
inductive Value where
  | vnull : Value
  | vstr : String → Value
  | vobj : List (String × Value) → Value
  | varr : List Value → Value

/-- A mapped row, Go `map[string]any`. -/
abbrev Row := List (String × Value)

/-- Go map read `m[k]`: first binding wins. -/
def lookupKV {α : Type} : List (String × α) → String → Option α
  | [], _ => none
  | (k1, v1) :: rest, k => if k1 == k then some v1 else lookupKV rest k

/-- Go map assignment `m[k] = v`: replace the binding if the key is present,
otherwise add it. -/
def setKV {α : Type} : List (String × α) → String → α → List (String × α)
  | [], k, v => [(k, v)]
  | (k1, v1) :: rest, k, v =>
    if k1 == k then (k, v) :: rest else (k1, v1) :: setKV rest k v

/-- Whether a value is the Go nil interface value. -/
def Value.isNull : Value → Bool
  | .vnull => true
  | _ => false

/-- Whether a value is a nested container (`map[string]any`). -/
def Value.isObj : Value → Bool
  | .vobj _ => true
  | _ => false

/-- The container reused while descending one step of a mapping path in
`mapRow` (mapper.go:445-461): an existing `map[string]any` at the key is
reused, anything else (absent key, or a non-container value) is replaced by a
fresh empty container. -/
def subObj : Option Value → Row
  | some (Value.vobj m) => m
  | _ => []

/-- Placement of a value at the leaf of a mapping path, the loop of
mapper.go:446-461: descend the path creating or reusing containers, then
assign the property at the leaf. -/
def setPath (row : Row) (path : List String) (name : String) (v : Value) : Row :=
  match path with
  | [] => setKV row name v
  | p :: rest => setKV row p (Value.vobj (setPath (subObj (lookupKV row p)) rest name v))

/-- Reading a value back through a nested path of keys, descending
containers. -/
def getPath (v : Value) : List String → Option Value
  | [] => some v
  | p :: rest =>
    match v with
    | Value.vobj m =>
      match lookupKV m p with
      | some v1 => getPath v1 rest
      | none => none
    | _ => none

/-- Reading a value back from a row through a nested path; the empty path
denotes the row itself. -/
def lookupPath (row : Row) (path : List String) : Option Value :=
  getPath (Value.vobj row) path

/-- Errors surfaced by the mapper: the `sql.ErrNoRows` sentinel is kept
distinguishable from every other error. -/
inductive MapErr where
  | errNoRows : MapErr
  | msg : String → MapErr
deriving DecidableEq, Repr

/-- Per-column configuration, mapping.go `Mapping`.  `nullDefault` is
`vnull` when no null default is configured, matching the Go nil-interface
test `mapping.NullDefault != nil`.  The column `Scanner` field acts before
row assembly and is absorbed into the scanned values. -/
structure Mapping where
  propertyName : String := ""
  path : List String := []
  omitNull : Bool := false
  nullDefault : Value := Value.vnull
  postProcess : Option (Row → Value → Except MapErr (Bool × Value)) := none

/-- Mappings keyed by column name, mapping.go `Mappings`. -/
abbrev Mappings := List (String × Mapping)

/-- Exclusion predicate over property name and path, exclude_properties.go
`PropertyExcluder.Exclude`. -/
abbrev PropertyExcluder := String → List String → Bool

/-- OR-combination of a slice of excluders, exclude_properties.go
`PropertyExclusions.Exclude`. -/
def excludeAny (excls : List PropertyExcluder) (name : String) (path : List String) : Bool :=
  excls.any (fun f => f name path)

/-- Row-level post-processor, row_post_processor.go: it may rewrite the row
and may fail.  `providesProperty` gates it behind the exclusions
(mapper.go:486). -/
structure RowPostProcessor where
  providesProperty : String
  post : Row → Except MapErr Row

/-- A registered sub-query as seen by `mapRow` (mapper.go:478-484): an
executor that rewrites the row or fails, gated by `providesProperty`.  The
concrete executors are modelled below by `sliceSubQueryExecute` and
`mergeSubQueryExecute`. -/
structure SubQueryRunner where
  providesProperty : String
  exec : Row → Row × Option MapErr

/-- The effective per-call state consumed by `mapRow`, as produced by
`rowMapOptions`: sub-path prefix (set for nested sub-query mappers),
mappings, exclusions, sub-queries and row post-processors. -/
structure MapperConfig where
  subPath : List String := []
  mappings : Mappings := []
  exclusions : List PropertyExcluder := []
  subQueries : List SubQueryRunner := []
  postProcessors : List RowPostProcessor := []

/-- One scanned result-set row: column names in result order paired with the
scanned cell values. -/
abbrev ScannedRow := List (String × Value)

/-- The body of the per-column loop of `mapRow` (mapper.go:428-477) for one
column: null handling (omit wins over default), property renaming, exclusion
check against the sub-path extended by the mapping path, path descent and
placement, then the column-level post-process which may replace the placed
value or abort with an error. -/
def mapRowColumn (cfg : MapperConfig) (row : Row) (name : String) (value : Value) :
    Except MapErr Row :=
  match lookupKV cfg.mappings name with
  | some mp =>
    if value.isNull && mp.omitNull then .ok row
    else
      let value1 := if value.isNull && !mp.nullDefault.isNull then mp.nullDefault else value
      let pname := if mp.propertyName == "" then name else mp.propertyName
      if excludeAny cfg.exclusions pname (cfg.subPath ++ mp.path) then .ok row
      else
        let row1 := setPath row mp.path pname value1
        match mp.postProcess with
        | none => .ok row1
        | some f =>
          match f row1 value1 with
          | .error e => .error e
          | .ok (true, rv) => .ok (setPath row1 mp.path pname rv)
          | .ok (false, _) => .ok row1
  | none =>
    if excludeAny cfg.exclusions name cfg.subPath then .ok row
    else .ok (setKV row name value)

/-- The per-column loop of `mapRow` over all scanned columns in result-set
order; a column error aborts the row. -/
def mapRowColumns (cfg : MapperConfig) (row : Row) : ScannedRow → Except MapErr Row
  | [] => .ok row
  | (n, v) :: rest =>
    match mapRowColumn cfg row n v with
    | .error e => .error e
    | .ok row1 => mapRowColumns cfg row1 rest

/-- The sub-query pass of `mapRow` (mapper.go:478-484): each registered
sub-query whose provided property is not excluded runs in order, mutating the
row; an error aborts the row. -/
def runSubQueries (cfg : MapperConfig) (row : Row) : List SubQueryRunner → Except MapErr Row
  | [] => .ok row
  | sq :: rest =>
    if sq.providesProperty == "" || !excludeAny cfg.exclusions sq.providesProperty [] then
      match sq.exec row with
      | (_, some e) => .error e
      | (row1, none) => runSubQueries cfg row1 rest
    else runSubQueries cfg row rest

/-- The row post-processor pass of `mapRow` (mapper.go:485-491), with the
same exclusion gating; an error aborts the row. -/
def runRowPostProcessors (cfg : MapperConfig) (row : Row) :
    List RowPostProcessor → Except MapErr Row
  | [] => .ok row
  | rp :: rest =>
    if rp.providesProperty == "" || !excludeAny cfg.exclusions rp.providesProperty [] then
      match rp.post row with
      | .error e => .error e
      | .ok row1 => runRowPostProcessors cfg row1 rest
    else runRowPostProcessors cfg row rest

/-- Assembly of one output row, mapper.go `mapRow`: the column loop starting
from an empty row, the sub-query pass, then the row post-processor pass. -/
def mapRow (cfg : MapperConfig) (cols : ScannedRow) : Except MapErr Row :=
  match mapRowColumns cfg [] cols with
  | .error e => .error e
  | .ok row =>
    match runSubQueries cfg row cfg.subQueries with
    | .error e => .error e
    | .ok row1 => runRowPostProcessors cfg row1 cfg.postProcessors

/-- The default limiter, limiter.go `nullLimiter.LimitReached`: never stop. -/
def nullLimiter : Nat → Bool := fun _ => false

/-- The limiter used by the repository's own tests (mapper_test.go
`testLimiter.LimitReached`): stop once the row count exceeds the cap. -/
def testLimiter (limit : Nat) : Nat → Bool := fun rowCount => limit < rowCount

/-- The row loop of `Rows` (mapper.go:117-127): increment the row count,
consult the limiter before scanning the row, then assemble; an assembly
error aborts the whole call with no partial result. -/
def rowsLoop (cfg : MapperConfig) (limiter : Nat → Bool) (rowCount : Nat) :
    List ScannedRow → Except MapErr (List Row)
  | [] => .ok []
  | r :: rest =>
    if limiter (rowCount + 1) then .ok []
    else
      match mapRow cfg r with
      | .error e => .error e
      | .ok row =>
        match rowsLoop cfg limiter (rowCount + 1) rest with
        | .error e => .error e
        | .ok rows => .ok (row :: rows)

/-- mapper.go `Rows`, modelled from the result set onward: all rows mapped in
result-set order, bounded by the limiter. -/
def Rows (cfg : MapperConfig) (limiter : Nat → Bool) (srows : List ScannedRow) :
    Except MapErr (List Row) :=
  rowsLoop cfg limiter 0 srows

/-- mapper.go `FirstRow`: only the first row is assembled; no rows means a
nil result with a nil error. -/
def FirstRow (cfg : MapperConfig) : List ScannedRow → Except MapErr (Option Row)
  | [] => .ok none
  | r :: _ =>
    match mapRow cfg r with
    | .error e => .error e
    | .ok row => .ok (some row)

/-- mapper.go `ExactlyOneRow`: the error is pre-set to `sql.ErrNoRows` and
only replaced when a first row exists. -/
def ExactlyOneRow (cfg : MapperConfig) : List ScannedRow → Except MapErr Row
  | [] => .error .errNoRows
  | r :: _ => mapRow cfg r

/-- mapper.go `Iterate`: assemble rows one at a time, handing each to the
handler, which answers (continue?, error); iteration stops at the end of the
rows, on an assembly error, on a handler error, or when the handler answers
false. -/
def Iterate (cfg : MapperConfig) (handler : Row → Bool × Option MapErr) :
    List ScannedRow → Option MapErr
  | [] => none
  | r :: rest =>
    match mapRow cfg r with
    | .error e => some e
    | .ok row =>
      match handler row with
      | (_, some e) => some e
      | (true, none) => Iterate cfg handler rest
      | (false, none) => none

/-- Byte-order comparison of strings (Go sorts JSON object keys in byte
order when marshalling a map). -/
def charListLe : List Char → List Char → Bool
  | [], _ => true
  | _ :: _, [] => false
  | c :: cs, d :: ds =>
    if c.toNat < d.toNat then true
    else if d.toNat < c.toNat then false
    else charListLe cs ds

/-- Key order used by Go `encoding/json` when marshalling a map. -/
def strLe (a b : String) : Bool := charListLe a.toList b.toList

/-- Insertion into a key-sorted association list. -/
def insertSorted (p : String × Value) : List (String × Value) → List (String × Value)
  | [] => [p]
  | q :: rest => if strLe p.1 q.1 then p :: q :: rest else q :: insertSorted p rest

/-- Sorting an association list by key, the order Go `encoding/json` uses
for `map[string]any`. -/
def sortByKey (l : List (String × Value)) : List (String × Value) :=
  l.foldr insertSorted []

mutual

/-- Recursively sort every object's fields by key, matching the key order of
Go `encoding/json` marshalling at every nesting level. -/
def deepSort : Value → Value
  | .vnull => .vnull
  | .vstr s => .vstr s
  | .vobj fields => .vobj (sortByKey (deepSortFields fields))
  | .varr items => .varr (deepSortItems items)

/-- Pointwise `deepSort` over object fields. -/
def deepSortFields : List (String × Value) → List (String × Value)
  | [] => []
  | (k, v) :: rest => (k, deepSort v) :: deepSortFields rest

/-- Pointwise `deepSort` over array items. -/
def deepSortItems : List Value → List Value
  | [] => []
  | v :: rest => deepSort v :: deepSortItems rest

end

/-- JSON escaping of one character as Go `encoding/json` does with HTML
escaping on (the `json.Encoder` default). -/
def jsonEscapeChar (c : Char) : String :=
  if c == '"' then "\\\""
  else if c == '\\' then "\\\\"
  else if c == '\n' then "\\n"
  else if c == '\r' then "\\r"
  else if c == '\t' then "\\t"
  else if c == '<' || c == '>' || c == '&' || c.toNat < 32 then
    "\\u00" ++ String.singleton (Nat.digitChar (c.toNat / 16)) ++
      String.singleton (Nat.digitChar (c.toNat % 16))
  else String.singleton c

/-- A JSON string literal for `s`. -/
def jsonQuote (s : String) : String :=
  "\"" ++ String.join (s.toList.map jsonEscapeChar) ++ "\""

mutual

/-- JSON text of a (deep-sorted) value. -/
def encodeValue : Value → String
  | .vnull => "null"
  | .vstr s => jsonQuote s
  | .vobj fields => "\x7b" ++ encodeFields fields ++ "\x7d"
  | .varr items => "[" ++ encodeItems items ++ "]"

/-- Comma-joined `key:value` JSON text of object fields. -/
def encodeFields : List (String × Value) → String
  | [] => ""
  | [(k, v)] => jsonQuote k ++ ":" ++ encodeValue v
  | (k, v) :: rest => jsonQuote k ++ ":" ++ encodeValue v ++ "," ++ encodeFields rest

/-- Comma-joined JSON text of array items. -/
def encodeItems : List Value → String
  | [] => ""
  | [v] => encodeValue v
  | v :: rest => encodeValue v ++ "," ++ encodeItems rest

end

/-- Go `json.Marshal` of a dynamic value: object keys sorted at every level,
then printed. -/
def jsonMarshal (v : Value) : String := encodeValue (deepSort v)

/-- Go `json.Encoder.Encode` of a row: the marshalled object followed by a
newline. -/
def encoderEncode (row : Row) : String := jsonMarshal (Value.vobj row) ++ "\n"

/-- The row loop of `WriteRows` (mapper.go:194-208): limiter first, then
assembly; a comma precedes every row but the first; an assembly error ends
the loop with nothing written for that row.  Returns the bytes written by
the loop and the error the loop left in `err`. -/
def writeRowsLoop (cfg : MapperConfig) (limiter : Nat → Bool) (rowCount : Nat)
    (first : Bool) : List ScannedRow → String × Option MapErr
  | [] => ("", none)
  | r :: rest =>
    if limiter (rowCount + 1) then ("", none)
    else
      match mapRow cfg r with
      | .error e => ("", some e)
      | .ok row =>
        let chunk := (if first then "" else ",") ++ encoderEncode row
        let out := writeRowsLoop cfg limiter (rowCount + 1) false rest
        (chunk ++ out.1, out.2)

/-- mapper.go `WriteRows` with an infallible writer: an opening bracket, the
row loop, then the closing bracket whose write result is assigned to `err`
(mapper.go:210), discarding any error the loop had produced. -/
def WriteRows (cfg : MapperConfig) (limiter : Nat → Bool) (srows : List ScannedRow) :
    String × Option MapErr :=
  let body := writeRowsLoop cfg limiter 0 true srows
  ("[" ++ body.1 ++ "]", none)

/-- mapper.go `WriteExactlyOneRow` with an infallible writer: the error is
pre-set to `sql.ErrNoRows`; with no rows nothing is written; otherwise the
first row is assembled and encoded. -/
def WriteExactlyOneRow (cfg : MapperConfig) : List ScannedRow → String × Option MapErr
  | [] => ("", some .errNoRows)
  | r :: _ =>
    match mapRow cfg r with
    | .error e => ("", some e)
    | .ok row => (encoderEncode row, none)

/-- Specification-side helper: assembly of every scanned row in order,
used to phrase hypotheses that each row assembles successfully. -/
def mapRowsAll (cfg : MapperConfig) : List ScannedRow → Except MapErr (List Row)
  | [] => .ok []
  | r :: rest =>
    match mapRow cfg r with
    | .error e => .error e
    | .ok row =>
      match mapRowsAll cfg rest with
      | .error e => .error e
      | .ok rows => .ok (row :: rows)

/-- An ASCII apostrophe, used in the sub-query argument error text. -/
def quoteChar : String := String.singleton (Char.ofNat 39)

/-- The error text of sub_query.go `getArgs` for a missing argument column:
it names the missing column. -/
def subQueryArgMissingMsg (arg : String) : String :=
  "sub-query arg property " ++ quoteChar ++ arg ++ quoteChar ++ " does not exist"

/-- sub_query.go `getArgs`: the declared argument columns are looked up in
the parent row in order; the first missing column aborts with an error naming
it. -/
def getArgs (argColumns : List String) (row : Row) : Except MapErr (List Value) :=
  match argColumns with
  | [] => .ok []
  | a :: rest =>
    match lookupKV row a with
    | some v =>
      match getArgs rest row with
      | .error e => .error e
      | .ok vs => .ok (v :: vs)
    | none => .error (.msg (subQueryArgMissingMsg a))

/-- The static fields of a sub-query shared by the executors, sub_query.go
`subQuery`. -/
structure SubQueryDef where
  propertyName : String := ""
  argColumns : List String := []
  emptyNil : Bool := false

/-- sub_query.go `sliceSubQuery.Execute`: resolve the arguments from the
parent row, run the nested multi-row read (abstracted as `dbRows`), then set
the target property to the resulting array, or to nil under the empty-nil
policy.  The pair returned is (row after execution, error). -/
def sliceSubQueryExecute (sq : SubQueryDef) (dbRows : List Value → Except MapErr (List Row))
    (row : Row) : Row × Option MapErr :=
  match getArgs sq.argColumns row with
  | .error e => (row, some e)
  | .ok args =>
    match dbRows args with
    | .error e => (row, some e)
    | .ok rws =>
      if sq.emptyNil && rws.isEmpty then (setKV row sq.propertyName Value.vnull, none)
      else (setKV row sq.propertyName (Value.varr (rws.map Value.vobj)), none)

/-- One merge step of sub_query.go `mergeSubQuery.Execute` in no-overwrite
mode (sub_query.go:160-164): a key already present in the row (including one
set by an earlier step) is kept, an absent key is filled. -/
def mergeNoOverwriteStep (r : Row) (kv : String × Value) : Row :=
  if (lookupKV r kv.1).isSome then r else setKV r kv.1 kv.2

/-- sub_query.go `mergeSubQuery.Execute`: resolve the arguments, run the
nested first-row read (abstracted as `dbFirstRow`; an empty row models both
the nil and the empty map), then merge the returned keys into the parent
row, either unconditionally or, in no-overwrite mode, only for keys absent
from the row. -/
def mergeSubQueryExecute (sq : SubQueryDef) (noOverwrite : Bool)
    (dbFirstRow : List Value → Except MapErr Row) (row : Row) : Row × Option MapErr :=
  match getArgs sq.argColumns row with
  | .error e => (row, some e)
  | .ok args =>
    match dbFirstRow args with
    | .error e => (row, some e)
    | .ok obj =>
      if noOverwrite then (obj.foldl mergeNoOverwriteStep row, none)
      else (obj.foldl (fun r kv => setKV r kv.1 kv.2) row, none)

/-- Mapper state assembled at construction, mapper.go `mapper`.  `subQueryQ`
models the query supplied by a parent sub-query (`m.subQuery.getQuery()`). -/
structure MapperState where
  cols : String := ""
  mappings : Mappings := []
  rowPostProcessors : List RowPostProcessor := []
  rowSubQueries : List SubQueryRunner := []
  defaultQuery : Option String := none
  useDecimals : Bool := true
  subQueryQ : Option String := none

/-- Merging one `Mappings` option into the effective mappings
(mapper.go:346-347 and mapper.go:400-402): later entries overwrite. -/
def mergeMappings (base more : Mappings) : Mappings :=
  more.foldl (fun b kv => setKV b kv.1 kv.2) base

/-- Construction-time options accepted by mapper.go `addOptions`. -/
inductive MapperOption where
  | rowPostProcessor : RowPostProcessor → MapperOption
  | subQuery : SubQueryRunner → MapperOption
  | query : String → MapperOption
  | useDecimals : Bool → MapperOption
  | mappings : Mappings → MapperOption

/-- The option loop of mapper.go `addOptions`: a second `Query` is a
configuration error; a `Query` regenerates `SELECT <cols> <clause>`.  No
check of the query text is performed here. -/
def addOptionsLoop (m : MapperState) (seenQuery : Bool) :
    List MapperOption → Except MapErr MapperState
  | [] => .ok m
  | o :: rest =>
    match o with
    | .rowPostProcessor rp =>
      addOptionsLoop { m with rowPostProcessors := m.rowPostProcessors ++ [rp] } seenQuery rest
    | .subQuery sq =>
      addOptionsLoop { m with rowSubQueries := m.rowSubQueries ++ [sq] } seenQuery rest
    | .query q =>
      if seenQuery then .error (.msg "cannot use multiple default queries")
      else
        addOptionsLoop { m with defaultQuery := some ("SELECT " ++ m.cols ++ " " ++ q) } true rest
    | .useDecimals b => addOptionsLoop { m with useDecimals := b } seenQuery rest
    | .mappings ms =>
      addOptionsLoop { m with mappings := mergeMappings m.mappings ms } seenQuery rest

/-- mapper.go `addOptions` as invoked from `newMapper`. -/
def addOptions (m : MapperState) (options : List MapperOption) : Except MapErr MapperState :=
  addOptionsLoop m false options

/-- mapper.go `newMapper` for a string column list: empty mappings, decimals
on, then the construction options. -/
def newMapper (cols : String) (options : List MapperOption) : Except MapErr MapperState :=
  addOptions { cols := cols } options

/-- Call-time options accepted by mapper.go `rowMapOptions`; a bare
conditional-exclude function normalises to `propertyExcluder`
(mapper.go:360-362). -/
inductive CallOption where
  | query : String → CallOption
  | addClause : String → CallOption
  | mappings : Mappings → CallOption
  | propertyExclusions : List PropertyExcluder → CallOption
  | propertyExcluder : PropertyExcluder → CallOption
  | rowPostProcessor : RowPostProcessor → CallOption
  | subQuery : SubQueryRunner → CallOption
  | limiter : (Nat → Bool) → CallOption

/-- The execution plan produced by mapper.go `rowMapOptions`. -/
structure ResolvedOptions where
  query : String := ""
  mappings : Mappings := []
  postProcesses : List RowPostProcessor := []
  subQueries : List SubQueryRunner := []
  exclusions : List PropertyExcluder := []
  limiter : Nat → Bool := nullLimiter

/-- The option loop of mapper.go `rowMapOptions`: a call-time `Query`
overrides the query (repeatedly, without error and without any text check);
`AddClause` needs a query already set; mappings merge into a copy;
exclusions accumulate; the final state without any query is the
`no default query` error. -/
def rowMapOptionsLoop (m : MapperState) (acc : ResolvedOptions) (querySet : Bool) :
    List CallOption → Except MapErr ResolvedOptions
  | [] => if querySet then .ok acc else .error (.msg "no default query")
  | o :: rest =>
    match o with
    | .query q =>
      rowMapOptionsLoop m { acc with query := "SELECT " ++ m.cols ++ " " ++ q } true rest
    | .addClause c =>
      if querySet then rowMapOptionsLoop m { acc with query := acc.query ++ " " ++ c } true rest
      else .error (.msg "add clause must have a query set")
    | .mappings ms =>
      rowMapOptionsLoop m { acc with mappings := mergeMappings acc.mappings ms } querySet rest
    | .propertyExclusions ps =>
      rowMapOptionsLoop m { acc with exclusions := acc.exclusions ++ ps } querySet rest
    | .propertyExcluder p =>
      rowMapOptionsLoop m { acc with exclusions := acc.exclusions ++ [p] } querySet rest
    | .rowPostProcessor rp =>
      rowMapOptionsLoop m { acc with postProcesses := acc.postProcesses ++ [rp] } querySet rest
    | .subQuery sq =>
      rowMapOptionsLoop m { acc with subQueries := acc.subQueries ++ [sq] } querySet rest
    | .limiter l =>
      rowMapOptionsLoop m { acc with limiter := l } querySet rest

/-- mapper.go `rowMapOptions`: the defaults come from the mapper state (its
default query, or the parent sub-query's query), then the call options are
folded in. -/
def rowMapOptions (m : MapperState) (options : List CallOption) :
    Except MapErr ResolvedOptions :=
  let start : ResolvedOptions :=
    { query := (m.defaultQuery.orElse (fun _ => m.subQueryQ)).getD ""
      mappings := m.mappings
      postProcesses := m.rowPostProcessors
      subQueries := m.rowSubQueries }
  rowMapOptionsLoop m start (m.defaultQuery.isSome || m.subQueryQ.isSome) options

/-- Projection of the resolved query text, for stating results about
`rowMapOptions`. -/
def resolvedQuery : Except MapErr ResolvedOptions → Option String
  | .ok r => some r.query
  | .error _ => none

/-- Projection of the resolved default query, for stating results about
`addOptions`. -/
def stateDefaultQuery : Except MapErr MapperState → Option (Option String)
  | .ok m => some m.defaultQuery
  | .error _ => none

/-- Whether a query clause begins with a comma after trimming the leading
whitespace cutset of struct_mapper.go `checkForgedColumns`. -/
def forgedComma (q : String) : Bool :=
  match q.toList.dropWhile (fun c => c == ' ' || c == '\t' || c == '\r' || c == '\n') with
  | c :: _ => c == ','
  | [] => false

/-- struct_mapper.go `checkForgedColumns`: a clause beginning with a comma
after trimming whitespace is the `cannot forge extra columns` configuration
error. -/
def checkForgedColumns (q : String) : Option MapErr :=
  if forgedComma q then some (.msg "cannot forge extra columns using Query") else none

/-- Call-time and construction-time options of the struct mapper relevant to
query resolution (struct_mapper.go); option kinds that do not touch the
query text are omitted except for `limiter`, which shows a pass-through. -/
inductive StructOption where
  | query : String → StructOption
  | addClause : String → StructOption
  | limiter : (Nat → Bool) → StructOption

/-- The query handling of struct_mapper.go `processInitialOptions`: a second
`Query` errs, a forged-comma query errs via `checkForgedColumns`, and an
option kind unknown at construction (such as `AddClause` or a limiter) is
the unknown-option error.  Returns the default query. -/
def processInitialOptions (cols : String) (defaultQuery : Option String) (seenQuery : Bool) :
    List StructOption → Except MapErr (Option String)
  | [] => .ok defaultQuery
  | .query q :: rest =>
    if seenQuery then .error (.msg "cannot use multiple default queries")
    else
      match checkForgedColumns q with
      | some e => .error e
      | none => processInitialOptions cols (some ("SELECT " ++ cols ++ " " ++ q)) true rest
  | .addClause _ :: _ => .error (.msg "unknown option type")
  | .limiter _ :: _ => .error (.msg "unknown option type")

/-- The query resolution of struct_mapper.go `rowMapOptions`: a call-time
`Query` resets the builder but first passes `checkForgedColumns`;
`AddClause` appends to an established query; no query at the end is the
`no default query` error. -/
def structRowMapOptionsLoop (cols : String) (qb : String) (querySet : Bool) :
    List StructOption → Except MapErr String
  | [] => if querySet then .ok qb else .error (.msg "no default query")
  | .query q :: rest =>
    match checkForgedColumns q with
    | some e => .error e
    | none => structRowMapOptionsLoop cols ("SELECT " ++ cols ++ " " ++ q) true rest
  | .addClause c :: rest =>
    if querySet then structRowMapOptionsLoop cols (qb ++ " " ++ c) true rest
    else .error (.msg "add clause must have a query set")
  | .limiter _ :: rest => structRowMapOptionsLoop cols qb querySet rest

/-- struct_mapper.go `rowMapOptions` from the mapper's default query. -/
def structRowMapOptions (cols : String) (defaultQuery : Option String)
    (options : List StructOption) : Except MapErr String :=
  match defaultQuery with
  | some q => structRowMapOptionsLoop cols q true options
  | none => structRowMapOptionsLoop cols "" false options

end Columbus

namespace Columbus

def c1Config : MapperConfig :=
  { mappings := [("a", { path := ["x", "y"] }), ("b", { path := ["x", "y"] })] }

def c3OmitConfig : MapperConfig :=
  { mappings := [("a", { omitNull := true, nullDefault := Value.vstr "d" })] }

def c3DefaultConfig : MapperConfig :=
  { mappings := [("a", { nullDefault := Value.vstr "d" })] }

def c4Config : MapperConfig :=
  { mappings := [("a", { postProcess := some (fun _ _ => .error (.msg "foo")) })] }

def c10Config : MapperConfig := { mappings := [("a", { path := ["x"] })] }

theorem lookupKV_setKV_self {α : Type} (l : List (String × α)) (k : String) (v : α) :
    lookupKV (setKV l k v) k = some v := by
  induction l with
  | nil => simp [setKV, lookupKV]
  | cons p rest ih =>
    obtain ⟨k1, v1⟩ := p
    by_cases h : k1 = k
    · simp [setKV, lookupKV, h]
    · simp [setKV, lookupKV, h, ih]

theorem lookupKV_setKV_ne {α : Type} (l : List (String × α)) (k k1 : String) (v : α)
    (h : k ≠ k1) : lookupKV (setKV l k1 v) k = lookupKV l k := by
  have h1 : k1 ≠ k := Ne.symm h
  induction l with
  | nil => simp [setKV, lookupKV, h1]
  | cons p rest ih =>
    obtain ⟨k2, v2⟩ := p
    by_cases h2 : k2 = k1
    · subst h2
      simp [setKV, lookupKV, h1]
    · by_cases h3 : k2 = k <;> simp [setKV, lookupKV, h2, h3, h, ih]

theorem lookupPath_setPath (path : List String) (row m : Row) (name : String) (v : Value)
    (h : lookupPath row path = some (Value.vobj m)) :
    lookupPath (setPath row path name v) path = some (Value.vobj (setKV m name v)) := by
  induction path generalizing row m with
  | nil =>
    simp [lookupPath, getPath] at h
    subst h
    simp [lookupPath, getPath, setPath]
  | cons p rest ih =>
    simp only [lookupPath, getPath] at h ⊢
    cases hk : lookupKV row p with
    | none => simp [hk] at h
    | some v1 =>
      rw [hk] at h
      simp only [setPath, hk]
      rw [lookupKV_setKV_self]
      cases v1 with
      | vobj m1 =>
        have := ih m1 m (by simpa [lookupPath, getPath] using h)
        simpa [lookupPath, subObj, getPath] using this
      | vnull =>
        cases rest with
        | nil => simp [getPath] at h
        | cons q rs => simp [getPath] at h
      | vstr s =>
        cases rest with
        | nil => simp [getPath] at h
        | cons q rs => simp [getPath] at h
      | varr items =>
        cases rest with
        | nil => simp [getPath] at h
        | cons q rs => simp [getPath] at h

theorem lookupPath_setPath_leaf (path : List String) (row : Row) (name : String) (v : Value) :
    lookupPath (setPath row path name v) (path ++ [name]) = some v := by
  induction path generalizing row with
  | nil => simp [setPath, lookupPath, getPath, lookupKV_setKV_self]
  | cons p rest ih =>
    simp only [setPath, lookupPath, getPath, List.cons_append]
    rw [lookupKV_setKV_self]
    exact ih (subObj (lookupKV row p))


theorem getArgs_first_missing (argColumns : List String) (row : Row) (a : String)
    (h : argColumns.find? (fun c => (lookupKV row c).isNone) = some a) :
    getArgs argColumns row = .error (.msg (subQueryArgMissingMsg a)) := by
  induction argColumns with
  | nil => simp [List.find?] at h
  | cons c rest ih =>
    cases hc : lookupKV row c with
    | none =>
      have : a = c := by
        rw [List.find?_cons_of_pos] at h
        · exact (Option.some.inj h).symm
        · simp [hc]
      subst this
      simp [getArgs, hc]
    | some v =>
      rw [List.find?_cons_of_neg] at h
      · simp [getArgs, hc, ih h]
      · simp [hc]

theorem merge_noOverwrite_keeps (obj : List (String × Value)) (row : Row) (k : String)
    (v : Value) (h : lookupKV row k = some v) :
    lookupKV (obj.foldl mergeNoOverwriteStep row) k = some v := by
  induction obj generalizing row with
  | nil => simpa [List.foldl] using h
  | cons kv rest ih =>
    simp only [List.foldl]
    by_cases hs : (lookupKV row kv.1).isSome
    · simpa [mergeNoOverwriteStep, hs] using ih row h
    · have hne : k ≠ kv.1 := by
        intro he
        rw [← he, h] at hs
        simp at hs
      have h2 : lookupKV (setKV row kv.1 kv.2) k = some v := by
        rw [lookupKV_setKV_ne _ _ _ _ hne, h]
      simpa [mergeNoOverwriteStep, hs] using ih _ h2

theorem merge_noOverwrite_adds (obj : List (String × Value)) (row : Row) (k : String)
    (h : lookupKV row k = none) :
    (lookupKV (obj.foldl mergeNoOverwriteStep row) k).isSome = true ↔
      k ∈ obj.map Prod.fst := by
  induction obj generalizing row with
  | nil => simp [List.foldl, h]
  | cons kv rest ih =>
    simp only [List.foldl, List.map, List.mem_cons]
    by_cases hk : k = kv.1
    · have hrow : (lookupKV row kv.1).isSome = false := by rw [← hk]; simp [h]
      have hset : lookupKV (setKV row kv.1 kv.2) kv.1 = some kv.2 :=
        lookupKV_setKV_self _ _ _
      have hkeep := merge_noOverwrite_keeps rest (setKV row kv.1 kv.2) kv.1 kv.2 hset
      simp [mergeNoOverwriteStep, hrow, hk, hkeep]
    · cases hs : lookupKV row kv.1 with
      | some v1 =>
        have hs2 : (lookupKV row kv.1).isSome = true := by simp [hs]
        simp [mergeNoOverwriteStep, hs2, ih row h, hk]
      | none =>
        have hs2 : (lookupKV row kv.1).isSome = false := by simp [hs]
        have h2 : lookupKV (setKV row kv.1 kv.2) k = none := by
          rw [lookupKV_setKV_ne _ _ _ _ hk, h]
        simp [mergeNoOverwriteStep, hs2, ih _ h2, hk]

theorem rowsLoop_noLimit (cfg : MapperConfig) (srows : List ScannedRow) (outs : List Row)
    (c : Nat) (h : mapRowsAll cfg srows = .ok outs) :
    rowsLoop cfg nullLimiter c srows = .ok outs := by
  induction srows generalizing outs c with
  | nil =>
    simp [mapRowsAll] at h
    subst h
    simp [rowsLoop]
  | cons r rest ih =>
    simp only [mapRowsAll] at h
    cases hm : mapRow cfg r with
    | error e => simp [hm] at h
    | ok row =>
      rw [hm] at h
      cases hr : mapRowsAll cfg rest with
      | error e => rw [hr] at h; simp at h
      | ok rows =>
        rw [hr] at h
        simp at h
        subst h
        simp [rowsLoop, nullLimiter, hm, ih rows (c + 1) hr]

theorem mapRowsAll_length (cfg : MapperConfig) (srows : List ScannedRow) (outs : List Row)
    (h : mapRowsAll cfg srows = .ok outs) : outs.length = srows.length := by
  induction srows generalizing outs with
  | nil =>
    simp [mapRowsAll] at h
    subst h
    rfl
  | cons r rest ih =>
    simp only [mapRowsAll] at h
    cases hm : mapRow cfg r with
    | error e => simp [hm] at h
    | ok row =>
      rw [hm] at h
      cases hr : mapRowsAll cfg rest with
      | error e => rw [hr] at h; simp at h
      | ok rows =>
        rw [hr] at h
        simp at h
        subst h
        simp [ih rows hr]

theorem rowsLoop_capped (cfg : MapperConfig) (K : Nat) (srows : List ScannedRow)
    (outs : List Row) (c : Nat) (h : mapRowsAll cfg srows = .ok outs) :
    rowsLoop cfg (testLimiter K) c srows = .ok (outs.take (K - c)) := by
  induction srows generalizing outs c with
  | nil =>
    simp [mapRowsAll] at h
    subst h
    simp [rowsLoop]
  | cons r rest ih =>
    simp only [mapRowsAll] at h
    cases hm : mapRow cfg r with
    | error e => simp [hm] at h
    | ok row =>
      rw [hm] at h
      cases hr : mapRowsAll cfg rest with
      | error e => rw [hr] at h; simp at h
      | ok rows =>
        rw [hr] at h
        simp at h
        subst h
        by_cases hc : K < c + 1
        · have h0 : K - c = 0 := by omega
          simp [rowsLoop, testLimiter, hc, h0]
        · have htake : K - c = K - (c + 1) + 1 := by omega
          rw [htake]
          simp [rowsLoop, testLimiter, hc, hm, ih rows (c + 1) hr, List.take_succ_cons]


/-- Claim C1: mapped columns whose paths share a prefix merge into the same
nested container instead of overwriting it; in particular the mapper over
columns a,b with both paths x.y assembles one row (a=foo, b=bar) into a
single nested container holding both properties. -/
theorem c1_shared_path_merges (row : Row) (path : List String) (name : String) (v : Value)
    (m : Row) (h : lookupPath row path = some (Value.vobj m)) :
    lookupPath (setPath row path name v) path = some (Value.vobj (setKV m name v)) ∧
    mapRow c1Config [("a", Value.vstr "foo"), ("b", Value.vstr "bar")] =
      .ok [("x", Value.vobj [("y", Value.vobj
        [("a", Value.vstr "foo"), ("b", Value.vstr "bar")])])] :=
  ⟨lookupPath_setPath path row m name v h, rfl⟩

/-- Witness for C1 at a concrete container. -/
theorem c1_shared_path_merges_witness :
    lookupPath [("x", Value.vobj [("k", Value.vnull)])] ["x"] =
      some (Value.vobj [("k", Value.vnull)]) ∧
    lookupPath (setPath [("x", Value.vobj [("k", Value.vnull)])] ["x"] "n" (Value.vstr "w"))
      ["x"] = some (Value.vobj (setKV [("k", Value.vnull)] "n" (Value.vstr "w"))) :=
  ⟨rfl, (c1_shared_path_merges [("x", Value.vobj [("k", Value.vnull)])] ["x"] "n"
    (Value.vstr "w") [("k", Value.vnull)] rfl).1⟩

/-- Claim C2: with a zero-row result set, `ExactlyOneRow` returns the
`sql.ErrNoRows` sentinel with no row, and `WriteExactlyOneRow` returns it
with nothing written. -/
theorem c2_exactly_one_row_no_rows (cfg : MapperConfig) :
    ExactlyOneRow cfg [] = .error .errNoRows ∧
    WriteExactlyOneRow cfg [] = ("", some .errNoRows) := ⟨rfl, rfl⟩

/-- Claim C3: a null scanned value under a mapping with omit-on-null leaves
the row untouched even when a null default is configured; without
omit-on-null, a configured null default is placed and the property is
present with the default value. -/
theorem c3_null_policy (cfg : MapperConfig) (name : String) (mp : Mapping) (row : Row)
    (hm : lookupKV cfg.mappings name = some mp) :
    (mp.omitNull = true → mapRowColumn cfg row name Value.vnull = .ok row) ∧
    (mp.omitNull = false → mp.nullDefault.isNull = false → mp.postProcess = none →
      excludeAny cfg.exclusions (if mp.propertyName = "" then name else mp.propertyName)
        (cfg.subPath ++ mp.path) = false →
      mapRowColumn cfg row name Value.vnull =
        .ok (setPath row mp.path
          (if mp.propertyName = "" then name else mp.propertyName) mp.nullDefault) ∧
      lookupPath
        (setPath row mp.path (if mp.propertyName = "" then name else mp.propertyName)
          mp.nullDefault)
        (mp.path ++ [if mp.propertyName = "" then name else mp.propertyName]) =
        some mp.nullDefault) := by
  constructor
  · intro h1
    simp [mapRowColumn, hm, Value.isNull, h1]
  · intro h1 h2 h3 h4
    refine ⟨?_, lookupPath_setPath_leaf _ _ _ _⟩
    have hvn : Value.vnull.isNull = true := rfl
    simp [mapRowColumn, hm, hvn, h1, h2, h3, h4]

/-- Witness for C3: omit-on-null leaves the property absent even with a
default configured; null-default alone places the default. -/
theorem c3_null_policy_witness :
    mapRowColumn c3OmitConfig [] "a" Value.vnull = .ok [] ∧
    mapRowColumn c3DefaultConfig [] "a" Value.vnull = .ok [("a", Value.vstr "d")] := by
  constructor
  · exact (c3_null_policy c3OmitConfig "a"
      { omitNull := true, nullDefault := Value.vstr "d" } [] rfl).1 rfl
  · exact ((c3_null_policy c3DefaultConfig "a"
      { nullDefault := Value.vstr "d" } [] rfl).2 rfl rfl rfl rfl).1

/-- Counterexample to C4 as stated: with a column post-process that fails,
`WriteRows` does not return the error — the closing-bracket write result
overwrites it (mapper.go:210), so the call reports success while the row was
silently dropped. -/
theorem c4_write_rows_error_lost_counterexample :
    mapRow c4Config [("a", Value.vstr "v")] = .error (.msg "foo") ∧
    WriteRows c4Config nullLimiter [[("a", Value.vstr "v")]] = ("[]", none) := ⟨rfl, rfl⟩

/-- Claim C4 (amended): a post-process error during assembly of a row is
returned by `Rows`, `FirstRow`, `ExactlyOneRow` and `Iterate`, each with no
partial row; `WriteRows` does not write the erroring row but discards the
assembly error in favour of the closing-bracket write, returning success
with a functioning writer.  A failing row-level post-processor makes the
assembly fail with its error. -/
theorem c4_post_process_error_amended (cfg : MapperConfig) (e : MapErr) (r : ScannedRow)
    (rest : List ScannedRow) (handler : Row → Bool × Option MapErr)
    (h : mapRow cfg r = .error e) :
    Rows cfg nullLimiter (r :: rest) = .error e ∧
    FirstRow cfg (r :: rest) = .error e ∧
    ExactlyOneRow cfg (r :: rest) = .error e ∧
    Iterate cfg handler (r :: rest) = some e ∧
    WriteRows cfg nullLimiter (r :: rest) = ("[]", none) ∧
    (∀ (rp : RowPostProcessor) (row : Row) (more : List RowPostProcessor),
      rp.providesProperty = "" → rp.post row = .error e →
      runRowPostProcessors cfg row (rp :: more) = .error e) := by
  refine ⟨?_, ?_, ?_, ?_, ?_, ?_⟩
  · simp [Rows, rowsLoop, nullLimiter, h]
  · simp [FirstRow, h]
  · simp [ExactlyOneRow, h]
  · simp [Iterate, h]
  · have hl : writeRowsLoop cfg nullLimiter 0 true (r :: rest) = ("", some e) := by
      simp [writeRowsLoop, nullLimiter, h]
    simp [WriteRows, hl]
  · intro rp row more h1 h2
    simp [runRowPostProcessors, h1, h2]

/-- Witness for C4 (amended) with the concrete failing post-process. -/
theorem c4_post_process_error_amended_witness :
    mapRow c4Config [("a", Value.vstr "v")] = .error (.msg "foo") ∧
    Rows c4Config nullLimiter [[("a", Value.vstr "v")]] = .error (.msg "foo") :=
  ⟨rfl, (c4_post_process_error_amended c4Config (.msg "foo") [("a", Value.vstr "v")] []
    (fun _ => (true, none)) rfl).1⟩

/-- Counterexample to C5 as stated: the map-based mapper accepts a query
clause that begins with a comma after trimming whitespace, both at
construction (`newMapper` / `addOptions`) and at call-time resolution
(`rowMapOptions`), even though the clause is comma-forged. -/
theorem c5_forged_comma_accepted_counterexample :
    newMapper "a,b" [MapperOption.query " ,extra_col FROM table"] =
      .ok { cols := "a,b", defaultQuery := some "SELECT a,b  ,extra_col FROM table" } ∧
    resolvedQuery (rowMapOptions
      { cols := "a,b", defaultQuery := some "SELECT a,b  ,extra_col FROM table" } []) =
      some "SELECT a,b  ,extra_col FROM table" ∧
    resolvedQuery (rowMapOptions { cols := "a,b" }
      [CallOption.query " ,extra_col FROM table"]) =
      some "SELECT a,b  ,extra_col FROM table" ∧
    forgedComma " ,extra_col FROM table" = true := ⟨rfl, rfl, rfl, rfl⟩

/-- Claim C5 (amended): the struct-mapper variant rejects a query clause
beginning, after trimming whitespace, with a comma — eagerly at construction
and at call-time option resolution, via `checkForgedColumns`; the map-based
mapper performs no such check. -/
theorem c5_forged_comma_rejected_amended (cols q : String) (dq : Option String)
    (rest : List StructOption) (h : forgedComma q = true) :
    processInitialOptions cols none false (StructOption.query q :: rest) =
      .error (.msg "cannot forge extra columns using Query") ∧
    structRowMapOptions cols dq (StructOption.query q :: rest) =
      .error (.msg "cannot forge extra columns using Query") := by
  constructor
  · simp [processInitialOptions, checkForgedColumns, h]
  · cases dq <;> simp [structRowMapOptions, structRowMapOptionsLoop, checkForgedColumns, h]

/-- Witness for C5 (amended) at the repository's own test query. -/
theorem c5_forged_comma_rejected_amended_witness :
    forgedComma " ,extra_col FROM table" = true ∧
    processInitialOptions "foo,bar" none false
      [StructOption.query " ,extra_col FROM table"] =
      .error (.msg "cannot forge extra columns using Query") :=
  ⟨rfl, (c5_forged_comma_rejected_amended "foo,bar" " ,extra_col FROM table" none [] rfl).1⟩

/-- Claim C6: a sub-query whose declared argument column is absent from the
parent row fails with an error naming that column, leaves the parent row
exactly unchanged, and never runs the nested query — the result is the same
for every possible database. -/
theorem c6_sub_query_missing_arg (sq : SubQueryDef) (row : Row) (a : String)
    (db : List Value → Except MapErr (List Row))
    (h : sq.argColumns.find? (fun c => (lookupKV row c).isNone) = some a) :
    sliceSubQueryExecute sq db row = (row, some (.msg (subQueryArgMissingMsg a))) := by
  simp [sliceSubQueryExecute, getArgs_first_missing _ _ _ h]

/-- Witness for C6 at a concrete parent row lacking the argument column. -/
theorem c6_sub_query_missing_arg_witness :
    sliceSubQueryExecute { propertyName := "sub", argColumns := ["a"] } (fun _ => .ok [])
      [("b", Value.vnull)] =
      ([("b", Value.vnull)], some (.msg (subQueryArgMissingMsg "a"))) :=
  c6_sub_query_missing_arg _ _ _ _ rfl

/-- Claim C7: a merge sub-query in no-overwrite mode keeps every
pre-existing parent-row key at its exact prior value and adds exactly the
returned keys that were previously absent. -/
theorem c7_merge_no_overwrite (sq : SubQueryDef) (db : List Value → Except MapErr Row)
    (row : Row) (args : List Value) (obj : Row)
    (h1 : getArgs sq.argColumns row = .ok args) (h2 : db args = .ok obj) :
    (mergeSubQueryExecute sq true db row).2 = none ∧
    (∀ k v, lookupKV row k = some v →
      lookupKV (mergeSubQueryExecute sq true db row).1 k = some v) ∧
    (∀ k, lookupKV row k = none →
      ((lookupKV (mergeSubQueryExecute sq true db row).1 k).isSome = true ↔
        k ∈ obj.map Prod.fst)) := by
  have hres : mergeSubQueryExecute sq true db row =
      (obj.foldl mergeNoOverwriteStep row, none) := by
    simp [mergeSubQueryExecute, h1, h2]
  refine ⟨by simp [hres], ?_, ?_⟩
  · intro k v hk
    rw [hres]
    exact merge_noOverwrite_keeps obj row k v hk
  · intro k hk
    rw [hres]
    exact merge_noOverwrite_adds obj row k hk

/-- Witness for C7: a pre-existing key survives a clobbering merge result. -/
theorem c7_merge_no_overwrite_witness :
    lookupKV (mergeSubQueryExecute { argColumns := [] } true
      (fun _ => .ok [("a", Value.vstr "clobber"), ("x", Value.vstr "new")])
      [("a", Value.vstr "orig")]).1 "a" = some (Value.vstr "orig") :=
  (c7_merge_no_overwrite { argColumns := [] }
    (fun _ => .ok [("a", Value.vstr "clobber"), ("x", Value.vstr "new")])
    [("a", Value.vstr "orig")] [] [("a", Value.vstr "clobber"), ("x", Value.vstr "new")]
    rfl rfl).2.1 "a" (Value.vstr "orig") rfl

/-- Claim C8: when every row assembles, `Rows` with the default limiter
returns all rows of the result set in order; with the capped limiter
`testLimiter K` and K smaller than the row count it returns exactly the
first K rows, in order. -/
theorem c8_rows_count_and_limiter (cfg : MapperConfig) (srows : List ScannedRow)
    (outs : List Row) (K : Nat) (h : mapRowsAll cfg srows = .ok outs) :
    (Rows cfg nullLimiter srows = .ok outs ∧ outs.length = srows.length) ∧
    (K < srows.length →
      Rows cfg (testLimiter K) srows = .ok (outs.take K) ∧ (outs.take K).length = K) := by
  refine ⟨⟨rowsLoop_noLimit cfg srows outs 0 h, mapRowsAll_length cfg srows outs h⟩, ?_⟩
  intro hK
  have hlen := mapRowsAll_length cfg srows outs h
  constructor
  · have hc := rowsLoop_capped cfg K srows outs 0 h
    simpa [Rows] using hc
  · simp [List.length_take]
    omega

/-- Witness for C8 on a two-row result set with cap 1. -/
theorem c8_rows_count_and_limiter_witness :
    Rows {} nullLimiter [[("a", Value.vstr "1")], [("a", Value.vstr "2")]] =
      .ok [[("a", Value.vstr "1")], [("a", Value.vstr "2")]] ∧
    Rows {} (testLimiter 1) [[("a", Value.vstr "1")], [("a", Value.vstr "2")]] =
      .ok [[("a", Value.vstr "1")]] := by
  have h := c8_rows_count_and_limiter {} [[("a", Value.vstr "1")], [("a", Value.vstr "2")]]
    [[("a", Value.vstr "1")], [("a", Value.vstr "2")]] 1 rfl
  exact ⟨h.1.1, (h.2 (by simp)).1⟩

/-- Claim C9: `WriteRows` over the two rows a=v1 and a=v2 writes exactly the
bracketed, comma-joined byte sequence with the encoder's per-row newline. -/
theorem c9_write_rows_encoding :
    WriteRows {} nullLimiter [[("a", Value.vstr "v1")], [("a", Value.vstr "v2")]] =
      ("[\x7b\"a\":\"v1\"\x7d\n,\x7b\"a\":\"v2\"\x7d\n]", none) := rfl

/-- Claim C10: when path descent meets a non-container value at a path key,
that value is silently replaced by a fresh empty container and assembly
continues without error; concretely, an unmapped column x is lost when a
later mapped column descends through x. -/
theorem c10_non_container_replaced (row : Row) (p : String) (rest : List String)
    (name : String) (pv v : Value) (h1 : lookupKV row p = some v) (h2 : v.isObj = false) :
    setPath row (p :: rest) name pv =
      setKV row p (Value.vobj (setPath [] rest name pv)) ∧
    mapRow c10Config [("x", Value.vstr "v"), ("a", Value.vstr "w")] =
      .ok [("x", Value.vobj [("a", Value.vstr "w")])] := by
  refine ⟨?_, rfl⟩
  simp only [setPath, h1]
  cases v with
  | vnull => simp [subObj]
  | vstr s => simp [subObj]
  | varr items => simp [subObj]
  | vobj m => simp [Value.isObj] at h2

/-- Witness for C10 at a concrete string value under the path key. -/
theorem c10_non_container_replaced_witness :
    setPath [("x", Value.vstr "v")] ["x"] "a" (Value.vstr "w") =
      setKV [("x", Value.vstr "v")] "x" (Value.vobj (setPath [] [] "a" (Value.vstr "w"))) :=
  (c10_non_container_replaced [("x", Value.vstr "v")] "x" [] "a" (Value.vstr "w")
    (Value.vstr "v") rfl rfl).1

end Columbus
